import Mathlib

/-!
Verification development for the DEC example-script repository
(`examples/fashion-mnist/fashion-mnist.py`, `examples/reuters21578/reuters.py`,
`examples/reuters-10k/test.py`, `examples/reuters_filtered/reuters.py`).

The scripts are thin orchestration: dataset-adapter classes exposing
index-based retrieval, a straight-line training pipeline calling external
`pretrain`/`train`/`predict` entry points, and post-hoc evaluation
(top-k score selection via `np.argsort`, confusion-matrix normalization)
plus file artifacts (checkpoints, heatmap images).

We shallowly embed:
 * tensors as rational-valued data tagged with a device,
 * the dataset adapters `ReutersDataset` and `CachedFashionMNIST`
   (the latter with its memoizing cache as an association list),
 * `np.argsort`-based top-k selection over a soft-assignment matrix,
 * row-wise confusion-matrix normalization,
 * each script's `main` as a trace of observable effects
   (prints, checkpoint saves, image saves, writer close),
 * the fallible file-loading prefix of the Reuters scripts as `Except`.
-/

/-- Device a tensor lives on, mirroring the `cuda` flag handling in the
scripts (`.cuda()` transfers). -/
inductive Device : Type
  | cpu : Device
  | cuda : Device
deriving DecidableEq, Repr

/-- A float tensor: its numeric payload (rationals standing for the float
values) plus the device it lives on.  Models the result of
`torch.tensor(feature, dtype=torch.float)` and of `.cuda()` transfers. -/
structure FloatTensor : Type where
  data : List ℚ
  device : Device
deriving DecidableEq, Repr

/-- A long (integer) tensor, the result of
`torch.tensor(label, dtype=torch.long)`. -/
structure LongTensor : Type where
  val : ℤ
  device : Device
deriving DecidableEq, Repr

/-- A label as stored in a `CachedFashionMNIST` cache slot: either the plain
Python integer coming straight from the wrapped `FashionMNIST` dataset
(the non-CUDA branch leaves it untouched) or the long tensor produced by
`torch.tensor(..., dtype=torch.long).cuda(...)` in the CUDA branch. -/
inductive CachedLabel : Type
  | pyInt (v : ℤ) : CachedLabel
  | tensor (v : ℤ) (device : Device) : CachedLabel
deriving DecidableEq, Repr

/-- The class `ReutersDataset` (identical in `reuters21578/reuters.py`,
`reuters-10k/test.py` and `reuters_filtered/reuters.py`): wraps a feature
array and a label array together with the `cuda` flag. -/
structure ReutersDataset : Type where
  features : List (List ℚ)
  labels : List ℤ
  cuda : Bool
deriving DecidableEq, Repr

namespace ReutersDataset

/-- Method `__len__`: `return len(self.labels)`. -/
def len (d : ReutersDataset) : ℕ := d.labels.length

/-- Method `__getitem__(idx)`:
```
feature = self.features[idx]
label = self.labels[idx]
feature = torch.tensor(feature, dtype=torch.float)
label = torch.tensor(label, dtype=torch.long)
if self.cuda: feature = feature.cuda(); label = label.cuda()
return feature, label
```
An out-of-range index raises (`none`); the indexing of `self.features`
happens first, as in the source. -/
def getitem (d : ReutersDataset) (idx : ℕ) : Option (FloatTensor × LongTensor) := do
  let feature ← d.features[idx]?
  let label ← d.labels[idx]?
  let dev := if d.cuda then Device.cuda else Device.cpu
  pure (⟨feature, dev⟩, ⟨label, dev⟩)

end ReutersDataset

/-- One raw item of the wrapped `FashionMNIST` dataset: the transformed image
tensor (on CPU) and its plain integer label. -/
structure MnistItem : Type where
  image : FloatTensor
  label : ℤ
deriving DecidableEq, Repr

/-- The class `CachedFashionMNIST` (`fashion-mnist/fashion-mnist.py`): wraps the
`FashionMNIST` dataset `self.ds` (modelled by the list of its items),
the `cuda` and `testing_mode` flags, and the memoizing `self._cache`
dictionary (modelled as an association list keyed by index). -/
structure CachedFashionMNIST : Type where
  ds : List MnistItem
  cuda : Bool
  testing_mode : Bool
  cache : List (ℕ × (FloatTensor × CachedLabel))
deriving DecidableEq, Repr

namespace CachedFashionMNIST

/-- The constructor `__init__`: stores the wrapped dataset and flags and
starts with `self._cache = dict()`. -/
def init (ds : List MnistItem) (cuda testing_mode : Bool) : CachedFashionMNIST :=
  ⟨ds, cuda, testing_mode, []⟩

/-- The cache-filling step of `__getitem__` for a fresh index:
`self._cache[index] = list(self.ds[index])`, then, when `self.cuda`,
`self._cache[index][0] = self._cache[index][0].cuda(non_blocking=True)` and
`self._cache[index][1] = torch.tensor(self._cache[index][1],
dtype=torch.long).cuda(non_blocking=True)`. -/
def transferItem (cuda : Bool) (it : MnistItem) : FloatTensor × CachedLabel :=
  if cuda then
    ({ it.image with device := Device.cuda }, CachedLabel.tensor it.label Device.cuda)
  else
    (it.image, CachedLabel.pyInt it.label)

/-- Method `__getitem__(index)`: on a cache hit return the cached pair; on a miss
read `self.ds[index]` (raising, i.e. `none`, when out of range for the
wrapped dataset), transfer it according to the `cuda` flag, store it in the
cache and return it.  The result also carries the updated object state and
a flag recording whether the wrapped dataset was consulted. -/
def getitem (s : CachedFashionMNIST) (index : ℕ) :
    Option ((FloatTensor × CachedLabel) × CachedFashionMNIST × Bool) :=
  match s.cache.lookup index with
  | some v => some (v, s, false)
  | none =>
    match s.ds[index]? with
    | none => none
    | some raw =>
      let v := transferItem s.cuda raw
      some (v, { s with cache := (index, v) :: s.cache }, true)

/-- Method `__len__`: `return 128 if self.testing_mode else len(self.ds)`. -/
def len (s : CachedFashionMNIST) : ℕ :=
  if s.testing_mode then 128 else s.ds.length

/-- Run a sequence of `__getitem__` calls from a state, collecting the
returned values and the indices at which the wrapped dataset was consulted.
A call that raises (out-of-range fresh index) aborts the run with the cache
unchanged, as the propagating exception would. -/
def runGets (s : CachedFashionMNIST) :
    List ℕ → CachedFashionMNIST × List (ℕ × (FloatTensor × CachedLabel)) × List ℕ
  | [] => (s, [], [])
  | i :: is =>
    match s.getitem i with
    | none => (s, [], [])
    | some (v, s', consulted) =>
      let r := runGets s' is
      (r.1, (i, v) :: r.2.1, (if consulted then [i] else []) ++ r.2.2)

end CachedFashionMNIST

/-! ### Top-k score selection (`np.argsort(q[:, target_cluster])[-10:]`) -/

/-- The soft-assignment column `q[:, target_cluster]`: the
`target_cluster`-th entry of every row. -/
def npColumn (q : List (List ℚ)) (t : ℕ) : List ℚ :=
  q.map (fun row => row.getD t 0)

/-- The comparison `np.argsort` sorts row indices by: index `i` precedes
index `j` when `v[i] <= v[j]`. -/
def scoreLE (v : List ℚ) (i j : ℕ) : Prop :=
  v.getD i 0 ≤ v.getD j 0

instance scoreLE.decidableRel (v : List ℚ) : DecidableRel (scoreLE v) :=
  fun i j => inferInstanceAs (Decidable (v.getD i 0 ≤ v.getD j 0))

instance scoreLE.isTotal (v : List ℚ) : IsTotal ℕ (scoreLE v) :=
  ⟨fun i j => le_total (v.getD i 0) (v.getD j 0)⟩

instance scoreLE.isTrans (v : List ℚ) : IsTrans ℕ (scoreLE v) :=
  ⟨fun _ _ _ hij hjk => le_trans hij hjk⟩

/-- Model of `np.argsort(v)`: a permutation of the row indices `0, …, len(v)-1`
arranged so that the corresponding scores are ascending. -/
def npArgsort (v : List ℚ) : List ℕ :=
  List.insertionSort (scoreLE v) (List.range v.length)

/-- Python slice `l[-10:]`: the last `min 10 (len l)` elements. -/
def lastTen (l : List ℕ) : List ℕ :=
  l.drop (l.length - 10)

/-- The selection `top_indices = np.argsort(q[:, target_cluster])[-10:]`. -/
def topIndices (q : List (List ℚ)) (t : ℕ) : List ℕ :=
  lastTen (npArgsort (npColumn q t))

/-- The selection `top_scores = q[top_indices, target_cluster]` (numpy fancy indexing:
the column entries at the selected rows, in the same order). -/
def topScores (q : List (List ℚ)) (t : ℕ) : List ℚ :=
  (topIndices q t).map (fun i => (npColumn q t).getD i 0)

/-! ### Confusion-matrix normalization -/

/-- Normalization `confusion.astype("float") / confusion.sum(axis=1)[:, np.newaxis]`:
each row is divided elementwise by its own sum.  No guard against a zero
row sum appears in the source. -/
def normalisedConfusion (confusion : List (List ℚ)) : List (List ℚ) :=
  confusion.map (fun row => row.map (fun x => x / row.sum))

/-! ### Script effect traces

Each script's `main` is straight-line code; we record its observable
effects (console prints, checkpoint saves, image saves, reassignment-map
application, TensorBoard-writer close) in source order as a list of
events, parameterised by the `testing_mode` flag and by the hex identifier
the run draws from `uuid.uuid4()`. -/

/-- One observable effect of a script run. -/
inductive Event : Type
  | printLine (s : String) : Event
  | printAccuracy : Event
  | printTopScores : Event
  | saveStateDict (file : String) : Event
  | applyReassignment : Event
  | savePng (file : String) : Event
  | printConfusionId (confusionId : String) : Event
  | closeWriter : Event
deriving DecidableEq, Repr

/-- The effect trace of `main` in `fashion-mnist/fashion-mnist.py`:
stage prints, the accuracy print, then — only when not in testing mode —
the reassignment of predictions, the confusion heatmap saved under the
fresh `uuid4` hex identifier, the cluster grid saved as `clusters.png`,
and the writer close.  No state dictionary is saved anywhere in this
script. -/
def fashionMainTrace (testing_mode : Bool) (confusionId : String) : List Event :=
  [Event.printLine "Pretraining stage.",
   Event.printLine "Training stage.",
   Event.printLine "DEC stage.",
   Event.printAccuracy] ++
  (if testing_mode then [] else
    [Event.applyReassignment,
     Event.savePng ("confusion_" ++ confusionId ++ ".png"),
     Event.printConfusionId confusionId,
     Event.savePng "clusters.png",
     Event.closeWriter])

/-- The effect trace shared by `main` in `reuters21578/reuters.py`,
`reuters-10k/test.py` and `reuters_filtered/reuters.py`: stage prints with
a checkpoint save after each of the three stages, the accuracy print, the
top-scores print, then — only when not in testing mode — the reassignment
of predictions, the confusion heatmap saved under the fresh `uuid4` hex
identifier, and the writer close. -/
def reutersMainTrace (testing_mode : Bool) (confusionId : String) : List Event :=
  [Event.printLine "Pretraining stage.",
   Event.saveStateDict "pretrained_model.pth",
   Event.printLine "Training stage.",
   Event.saveStateDict "finetuned_model.pth",
   Event.printLine "DEC stage.",
   Event.saveStateDict "dec_model.pth",
   Event.printAccuracy,
   Event.printTopScores] ++
  (if testing_mode then [] else
    [Event.applyReassignment,
     Event.savePng ("confusion_" ++ confusionId ++ ".png"),
     Event.printConfusionId confusionId,
     Event.closeWriter])

/-- The checkpoint files a trace persists, in order: the arguments of its
`torch.save(..., file)` events. -/
def checkpointFiles (tr : List Event) : List String :=
  tr.filterMap (fun e => match e with
    | Event.saveStateDict f => some f
    | _ => none)

/-- The image files a trace writes, in order: the arguments of its
`savefig(file)` events. -/
def imageFiles (tr : List Event) : List String :=
  tr.filterMap (fun e => match e with
    | Event.savePng f => some f
    | _ => none)

/-- Whether `needle` occurs as a substring of `hay`. -/
def strContains (needle hay : String) : Prop :=
  List.IsInfix needle.toList hay.toList

instance strContains.decidable (needle hay : String) :
    Decidable (strContains needle hay) :=
  List.decidableInfix needle.toList hay.toList

/-! ### Failure propagation in the Reuters scripts

The only fallible operations the scripts own are the initial data loads
(`sio.loadmat(mat_file)` in `reuters-10k/test.py`, `pickle.load(f)` on the
opened file in `reuters_filtered/reuters.py`).  The scripts contain no
`try`/`except`, so whatever exception the load raises leaves `main`
unchanged; we embed the load result as an `Except` value and `main` as the
straight-line continuation binding it. -/

/-- The payload of a successful load: the feature matrix and the label
vector (after `squeeze`). -/
structure LoadedData : Type where
  features : List (List ℚ)
  labels : List ℤ
deriving DecidableEq, Repr

/-- Function `main` of `reuters-10k/test.py` given the outcome of
`sio.loadmat(mat_file)`: on success the script runs to completion and
produces its effect trace; a raised exception propagates unchanged. -/
def runReuters10k (loadResult : Except String LoadedData)
    (testing_mode : Bool) (confusionId : String) : Except String (List Event) := do
  let _ ← loadResult
  pure (reutersMainTrace testing_mode confusionId)

/-- Function `main` of `reuters_filtered/reuters.py` given the outcome of opening
and unpickling the `.pkl` file: on success the script runs to completion
and produces its effect trace; a raised exception propagates unchanged. -/
def runReutersFiltered (loadResult : Except String LoadedData)
    (testing_mode : Bool) (confusionId : String) : Except String (List Event) := do
  let _ ← loadResult
  pure (reutersMainTrace testing_mode confusionId)

/-! ### Dataset construction in `reuters_filtered/reuters.py` -/

/-- Construction `ds_train = ReutersDataset(features=features, labels=labels, cuda=cuda)`
(line 90 of `reuters_filtered/reuters.py`): the training dataset built
from the unpickled arrays. -/
def filteredDsTrain (d : LoadedData) (cuda : Bool) : ReutersDataset :=
  ⟨d.features, d.labels, cuda⟩

/-- Construction `ds_val = ReutersDataset(features=features, labels=labels, cuda=cuda)`
(line 91 of `reuters_filtered/reuters.py`): the evaluation dataset, built
from the same `features` and `labels` objects. -/
def filteredDsVal (d : LoadedData) (cuda : Bool) : ReutersDataset :=
  ⟨d.features, d.labels, cuda⟩

/-- The precondition of the top-k claim: `target_cluster` is a valid column
index of every row of `q`. -/
def validColumn (q : List (List ℚ)) (t : ℕ) : Prop :=
  ∀ row ∈ q, t < row.length

instance validColumn.decidable (q : List (List ℚ)) (t : ℕ) :
    Decidable (validColumn q t) :=
  List.decidableBAll _ q

/-- The precondition of the normalization claim: every row of the confusion
matrix has nonzero sum. -/
def noZeroRowSums (m : List (List ℚ)) : Prop :=
  ∀ row ∈ m, row.sum ≠ 0

instance noZeroRowSums.decidable (m : List (List ℚ)) :
    Decidable (noZeroRowSums m) :=
  List.decidableBAll _ m

/-- Cache coherence for `CachedFashionMNIST`: every cached entry is the
(cuda-transferred) item of the wrapped dataset at its key. -/
def CachedFashionMNIST.CacheCoherent (s : CachedFashionMNIST) : Prop :=
  ∀ k v, s.cache.lookup k = some v →
    s.ds[k]?.map (CachedFashionMNIST.transferItem s.cuda) = some v

/-! ## Theorems -/

/-- Claim C10: in `reuters_filtered/reuters.py`, `ds_train` and `ds_val` are
constructed from the identical `features` and `labels` arrays, so the
validation dataset is extensionally equal to the training dataset: the two
objects are equal, have the same length, and agree at every index, so
evaluation runs on the training data. -/
theorem filtered_val_equals_train (d : LoadedData) (cuda : Bool) :
    filteredDsVal d cuda = filteredDsTrain d cuda ∧
    (filteredDsVal d cuda).len = (filteredDsTrain d cuda).len ∧
    ∀ i : ℕ, (filteredDsVal d cuda).getitem i = (filteredDsTrain d cuda).getitem i :=
  ⟨rfl, rfl, fun _ => rfl⟩

/-- Counterexample to claim C5: the fashion-mnist script persists no checkpoint at
all — its effect trace contains no `torch.save` event in either mode — so
it is not the case that every script persists the three checkpoints. -/
theorem fashion_persists_no_checkpoint :
    checkpointFiles (fashionMainTrace false "0123456789abcdef") = [] ∧
    checkpointFiles (fashionMainTrace true "0123456789abcdef") = [] := by
  decide

/-- Claim C5 as amended: the three Reuters scripts (`reuters-10k/test.py`,
`reuters21578/reuters.py`, `reuters_filtered/reuters.py`) persist exactly the
three checkpoints `pretrained_model.pth`, `finetuned_model.pth`,
`dec_model.pth`, in stage order, in every mode; the fashion-mnist script
persists none. -/
theorem scripts_checkpoint_saves (tm : Bool) (cid : String) :
    checkpointFiles (reutersMainTrace tm cid) =
      ["pretrained_model.pth", "finetuned_model.pth", "dec_model.pth"] ∧
    checkpointFiles (fashionMainTrace tm cid) = [] := by
  cases tm <;> exact ⟨rfl, rfl⟩

/-- Counterexample to claim C6: the cluster-visualization image of the
fashion-mnist script is always written to the fixed filename
`clusters.png`: two runs drawing different random identifiers write the
same filename, and that filename does not contain the run's identifier —
so not every image artifact's filename contains a freshly generated random
identifier. -/
theorem clusters_png_has_no_random_id :
    "clusters.png" ∈
      imageFiles (fashionMainTrace false "00000000000000000000000000000000") ∧
    "clusters.png" ∈
      imageFiles (fashionMainTrace false "ffffffffffffffffffffffffffffffff") ∧
    ¬ strContains "00000000000000000000000000000000" "clusters.png" := by
  decide

/-- Claim C6 as amended: every confusion-matrix heatmap image is written to a
filename containing the run's freshly drawn random identifier, but the
fashion-mnist cluster-visualization image is written to the fixed filename
`clusters.png`, identical across runs; in testing mode no image is
written. -/
theorem image_artifact_filenames (cid : String) :
    imageFiles (fashionMainTrace false cid) =
      ["confusion_" ++ cid ++ ".png", "clusters.png"] ∧
    imageFiles (reutersMainTrace false cid) = ["confusion_" ++ cid ++ ".png"] ∧
    strContains cid ("confusion_" ++ cid ++ ".png") ∧
    imageFiles (fashionMainTrace true cid) = [] ∧
    imageFiles (reutersMainTrace true cid) = [] := by
  refine ⟨rfl, rfl, ⟨"confusion_".toList, ".png".toList, ?_⟩, rfl, rfl⟩
  show "confusion_".data ++ cid.data ++ ".png".data = ("confusion_" ++ cid ++ ".png").data
  simp [String.data_append]

/-- Claim C7: the Reuters scripts wrap their initial data load
(`sio.loadmat` in `reuters-10k/test.py`, the pickle load in
`reuters_filtered/reuters.py`) in no handler: a raised exception propagates
to the caller unchanged — no recovery, no retry, no translation — and on a
successful load the script runs to completion producing its effect
trace. -/
theorem load_failure_propagates_unchanged (e : String) (d : LoadedData)
    (tm : Bool) (cid : String) :
    runReuters10k (Except.error e) tm cid = Except.error e ∧
    runReutersFiltered (Except.error e) tm cid = Except.error e ∧
    runReuters10k (Except.ok d) tm cid = Except.ok (reutersMainTrace tm cid) ∧
    runReutersFiltered (Except.ok d) tm cid = Except.ok (reutersMainTrace tm cid) :=
  ⟨rfl, rfl, rfl, rfl⟩

/-- Claim C8: with the testing-mode flag set, the post-evaluation block of the
fashion-mnist and reuters21578 scripts has no filesystem effect — no image
is written, the reassignment map is not applied, the writer is never
closed — while the accuracy print still happens in either mode. -/
theorem testing_mode_skips_post_evaluation (cid : String) :
    imageFiles (fashionMainTrace true cid) = [] ∧
    imageFiles (reutersMainTrace true cid) = [] ∧
    Event.applyReassignment ∉ fashionMainTrace true cid ∧
    Event.applyReassignment ∉ reutersMainTrace true cid ∧
    Event.closeWriter ∉ fashionMainTrace true cid ∧
    Event.closeWriter ∉ reutersMainTrace true cid ∧
    Event.printAccuracy ∈ fashionMainTrace true cid ∧
    Event.printAccuracy ∈ fashionMainTrace false cid ∧
    Event.printAccuracy ∈ reutersMainTrace true cid ∧
    Event.printAccuracy ∈ reutersMainTrace false cid := by
  refine ⟨rfl, rfl, ?_, ?_, ?_, ?_, ?_, ?_, ?_, ?_⟩ <;>
    simp [fashionMainTrace, reutersMainTrace]

/-- Dividing every entry of a list by `s` divides its sum by `s`. -/
theorem sum_map_div (l : List ℚ) (s : ℚ) :
    (l.map (fun x => x / s)).sum = l.sum / s := by
  induction l with
  | nil => simp
  | cons x l ih => simp [ih, add_div]

/-- Entrywise view of dividing a row by `s` (out-of-range entries are the
default `0`, and `0 / s = 0`). -/
theorem getD_map_div : ∀ (row : List ℚ) (s : ℚ) (j : ℕ),
    (row.map (fun x => x / s)).getD j 0 = row.getD j 0 / s
  | [], s, j => by simp
  | x :: row, s, 0 => rfl
  | x :: row, s, j + 1 => getD_map_div row s j

/-- Row `i` of the normalized confusion matrix is row `i` of the input
divided by its own sum (out-of-range rows are the default `[]`). -/
theorem normalisedConfusion_getD : ∀ (m : List (List ℚ)) (i : ℕ),
    (normalisedConfusion m).getD i [] =
      (m.getD i []).map (fun x => x / (m.getD i []).sum)
  | [], i => by simp [normalisedConfusion]
  | row :: m, 0 => rfl
  | row :: m, i + 1 => normalisedConfusion_getD m i

/-- Claim C4: confusion-matrix normalization divides every entry by its row
sum — entrywise, `normalised_confusion[i][j] = confusion[i][j] / (sum of
row i)`, with no guard on the divisor — and therefore, when every row sum
is nonzero, every row of the normalized matrix sums to `1`. -/
theorem confusion_normalisation (m : List (List ℚ)) (h : noZeroRowSums m) :
    (∀ i j : ℕ, ((normalisedConfusion m).getD i []).getD j 0 =
      ((m.getD i []).getD j 0) / (m.getD i []).sum) ∧
    (∀ row ∈ normalisedConfusion m, row.sum = 1) := by
  constructor
  · intro i j
    rw [normalisedConfusion_getD, getD_map_div]
  · intro row hrow
    rcases List.mem_map.mp hrow with ⟨r, hr, rfl⟩
    rw [sum_map_div, div_self (h r hr)]

/-- Witness for claim C4 at the concrete matrix `[[1, 1], [1, 3]]`. -/
theorem confusion_normalisation_witness :
    noZeroRowSums [[(1 : ℚ), 1], [1, 3]] ∧
    ((normalisedConfusion [[(1 : ℚ), 1], [1, 3]]).getD 1 []).getD 1 0 =
      (([[(1 : ℚ), 1], [1, 3]].getD 1 []).getD 1 0) /
        ([[(1 : ℚ), 1], [1, 3]].getD 1 []).sum ∧
    List.sum ((normalisedConfusion [[(1 : ℚ), 1], [1, 3]]).getD 0 []) = 1 := by
  have h : noZeroRowSums [[(1 : ℚ), 1], [1, 3]] := by
    intro row hrow
    simp only [List.mem_cons, List.not_mem_nil, or_false] at hrow
    rcases hrow with rfl | rfl <;> norm_num
  refine ⟨h, (confusion_normalisation _ h).1 1 1, ?_⟩
  exact (confusion_normalisation _ h).2 _ (List.mem_cons_self _ _)

/-- Claim C1: the method `__getitem__` of both dataset adapters is plain indexed lookup:
it succeeds exactly when the index is within bounds of the wrapped data
(the only precondition), and then returns the pair at that position — for
`ReutersDataset` the `idx`-th feature row as a float tensor and the
`idx`-th label as a long tensor (on the device selected by the `cuda`
flag), for a freshly constructed `CachedFashionMNIST` the wrapped
dataset's item `j` (cuda-transferred when the flag is set). -/
theorem getitem_is_indexed_lookup (d : ReutersDataset)
    (ds : List MnistItem) (cuda tm : Bool) (i j : ℕ) :
    ((d.getitem i).isSome ↔ (i < d.features.length ∧ i < d.labels.length)) ∧
    (i < d.features.length → i < d.labels.length →
      d.getitem i = some
        (⟨d.features.getD i [], if d.cuda then Device.cuda else Device.cpu⟩,
         ⟨d.labels.getD i 0, if d.cuda then Device.cuda else Device.cpu⟩)) ∧
    (((CachedFashionMNIST.init ds cuda tm).getitem j).isSome ↔ j < ds.length) ∧
    (j < ds.length →
      (CachedFashionMNIST.init ds cuda tm).getitem j =
        some (CachedFashionMNIST.transferItem cuda (ds.getD j ⟨⟨[], Device.cpu⟩, 0⟩),
          ⟨ds, cuda, tm,
           [(j, CachedFashionMNIST.transferItem cuda (ds.getD j ⟨⟨[], Device.cpu⟩, 0⟩))]⟩,
          true)) := by
  refine ⟨?_, ?_, ?_, ?_⟩
  · unfold ReutersDataset.getitem
    rcases Nat.lt_or_ge i d.features.length with hf | hf
    · rw [List.getElem?_eq_getElem hf]
      rcases Nat.lt_or_ge i d.labels.length with hl | hl
      · rw [List.getElem?_eq_getElem hl]
        simpa using ⟨hf, hl⟩
      · rw [List.getElem?_eq_none hl]
        simp
        omega
    · rw [List.getElem?_eq_none hf]
      simp
      omega
  · intro hf hl
    unfold ReutersDataset.getitem
    rw [List.getElem?_eq_getElem hf, List.getElem?_eq_getElem hl,
      List.getD_eq_getElem _ _ hf, List.getD_eq_getElem _ _ hl]
    rfl
  · unfold CachedFashionMNIST.getitem CachedFashionMNIST.init
    rcases Nat.lt_or_ge j ds.length with hj | hj
    · simp only [List.lookup_nil]
      rw [List.getElem?_eq_getElem hj]
      simpa using hj
    · simp only [List.lookup_nil]
      rw [List.getElem?_eq_none hj]
      simpa using by omega
  · intro hj
    unfold CachedFashionMNIST.getitem CachedFashionMNIST.init
    simp only [List.lookup_nil]
    rw [List.getElem?_eq_getElem hj, List.getD_eq_getElem _ _ hj]

/-- Witness for claim C1 at a concrete two-row dataset and index `1`. -/
theorem getitem_is_indexed_lookup_witness :
    (1 < List.length [[(2 : ℚ)], [3]] ∧ 1 < List.length [(5 : ℤ), 7]) ∧
    ReutersDataset.getitem ⟨[[(2 : ℚ)], [3]], [(5 : ℤ), 7], false⟩ 1 =
      some (⟨[3], Device.cpu⟩, ⟨7, Device.cpu⟩) ∧
    (1 < List.length [(⟨⟨[(4 : ℚ)], Device.cpu⟩, 0⟩ : MnistItem), ⟨⟨[6], Device.cpu⟩, 9⟩]) ∧
    (CachedFashionMNIST.init
        [(⟨⟨[(4 : ℚ)], Device.cpu⟩, 0⟩ : MnistItem), ⟨⟨[6], Device.cpu⟩, 9⟩]
        true false).getitem 1 =
      some ((⟨[6], Device.cuda⟩, CachedLabel.tensor 9 Device.cuda),
        ⟨[⟨⟨[(4 : ℚ)], Device.cpu⟩, 0⟩, ⟨⟨[6], Device.cpu⟩, 9⟩], true, false,
         [(1, (⟨[6], Device.cuda⟩, CachedLabel.tensor 9 Device.cuda))]⟩,
        true) := by
  have hb : (1 : ℕ) < List.length [[(2 : ℚ)], [3]] ∧
      1 < List.length [(5 : ℤ), 7] := by
    constructor <;> decide
  have hm : (1 : ℕ) <
      List.length [(⟨⟨[(4 : ℚ)], Device.cpu⟩, 0⟩ : MnistItem), ⟨⟨[6], Device.cpu⟩, 9⟩] := by
    decide
  have h := getitem_is_indexed_lookup ⟨[[(2 : ℚ)], [3]], [(5 : ℤ), 7], false⟩
    [(⟨⟨[(4 : ℚ)], Device.cpu⟩, 0⟩ : MnistItem), ⟨⟨[6], Device.cpu⟩, 9⟩] true false 1 1
  exact ⟨hb, h.2.1 hb.1 hb.2, hm, h.2.2.2 hm⟩

/-- Claim C9: when `testing_mode` is set, the method `__len__` of `CachedFashionMNIST`
reports `128` whatever the size of the wrapped dataset, yet `__getitem__`
still succeeds on every index of the wrapped dataset, including indices
`128 ≤ i < len(ds)` beyond the reported length, returning the wrapped
dataset's item `i` — the reported length is not an upper bound on the
valid indices. -/
theorem testing_len_not_an_index_bound (ds : List MnistItem) (cuda : Bool)
    (i : ℕ) (hge : 128 ≤ i) (hlt : i < ds.length) :
    (CachedFashionMNIST.init ds cuda true).len = 128 ∧
    (CachedFashionMNIST.init ds cuda true).getitem i =
      some (CachedFashionMNIST.transferItem cuda (ds.getD i ⟨⟨[], Device.cpu⟩, 0⟩),
        ⟨ds, cuda, true,
         [(i, CachedFashionMNIST.transferItem cuda (ds.getD i ⟨⟨[], Device.cpu⟩, 0⟩))]⟩,
        true) := by
  constructor
  · rfl
  · unfold CachedFashionMNIST.getitem CachedFashionMNIST.init
    simp only [List.lookup_nil]
    rw [List.getElem?_eq_getElem hlt, List.getD_eq_getElem _ _ hlt]

/-- Witness for claim C9: a wrapped dataset of `130` identical items, read at
index `129`, beyond the reported length `128`. -/
theorem testing_len_not_an_index_bound_witness :
    (128 ≤ 129 ∧ 129 < List.length
        (List.replicate 130 (⟨⟨[], Device.cpu⟩, 0⟩ : MnistItem))) ∧
    (CachedFashionMNIST.init
        (List.replicate 130 (⟨⟨[], Device.cpu⟩, 0⟩ : MnistItem)) false true).len = 128 ∧
    (CachedFashionMNIST.init
        (List.replicate 130 (⟨⟨[], Device.cpu⟩, 0⟩ : MnistItem)) false true).getitem 129 =
      some ((⟨[], Device.cpu⟩, CachedLabel.pyInt 0),
        ⟨List.replicate 130 (⟨⟨[], Device.cpu⟩, 0⟩ : MnistItem), false, true,
         [(129, (⟨[], Device.cpu⟩, CachedLabel.pyInt 0))]⟩,
        true) := by
  have hge : (128 : ℕ) ≤ 129 := by decide
  have hlt : (129 : ℕ) < List.length
      (List.replicate 130 (⟨⟨[], Device.cpu⟩, 0⟩ : MnistItem)) := by
    simp
  have h := testing_len_not_an_index_bound
    (List.replicate 130 (⟨⟨[], Device.cpu⟩, 0⟩ : MnistItem)) false 129 hge hlt
  refine ⟨⟨hge, hlt⟩, h.1, ?_⟩
  rw [h.2]
  simp [CachedFashionMNIST.transferItem]

namespace CachedFashionMNIST

/-- Anatomy of a successful `__getitem__` call: the wrapped dataset and the
`cuda` flag are untouched, existing cache entries survive with their
values, the returned value is the (transferred) wrapped item at the index
whenever the cache was coherent, coherence is preserved, and the wrapped
dataset is consulted exactly on a cache miss, which then fills the cache
at that index. -/
theorem getitem_some_spec (s : CachedFashionMNIST) (i : ℕ)
    (v : FloatTensor × CachedLabel) (s' : CachedFashionMNIST) (c : Bool)
    (h : s.getitem i = some (v, s', c)) :
    s'.ds = s.ds ∧ s'.cuda = s.cuda ∧
    (∀ k w, s.cache.lookup k = some w → s'.cache.lookup k = some w) ∧
    (CacheCoherent s → s.ds[i]?.map (transferItem s.cuda) = some v) ∧
    (CacheCoherent s → CacheCoherent s') ∧
    (c = true → s.cache.lookup i = none ∧ s'.cache.lookup i = some v) := by
  unfold getitem at h
  cases hl : s.cache.lookup i with
  | some w =>
    rw [hl] at h
    simp only [Option.some.injEq, Prod.mk.injEq] at h
    obtain ⟨rfl, rfl, rfl⟩ := h
    refine ⟨rfl, rfl, fun k w' hk => hk, fun hc => hc i w hl, fun hc => hc, ?_⟩
    intro hfalse
    cases hfalse
  | none =>
    rw [hl] at h
    cases hd : s.ds[i]? with
    | none =>
      rw [hd] at h
      cases h
    | some raw =>
      rw [hd] at h
      simp only [Option.some.injEq, Prod.mk.injEq] at h
      obtain ⟨rfl, rfl, rfl⟩ := h
      refine ⟨rfl, rfl, ?_, fun _ => rfl, ?_, ?_⟩
      · intro k w' hk
        by_cases hki : k = i
        · subst hki
          rw [hk] at hl
          cases hl
        · simpa [List.lookup_cons, beq_false_of_ne hki] using hk
      · intro hc' k w' hk
        by_cases hki : k = i
        · subst hki
          rw [List.lookup_cons] at hk
          simp only [beq_self_eq_true, Option.some.injEq] at hk
          show s.ds[k]?.map (transferItem s.cuda) = some w'
          rw [hd, ← hk]
          rfl
        · rw [List.lookup_cons] at hk
          simp only [beq_false_of_ne hki] at hk
          show s.ds[k]?.map (transferItem s.cuda) = some w'
          exact hc' k w' hk
      · intro _
        refine ⟨rfl, ?_⟩
        show List.lookup i ((i, transferItem s.cuda raw) :: s.cache) =
          some (transferItem s.cuda raw)
        rw [List.lookup_cons]
        simp

/-- Coherence of the cache survives any sequence of `__getitem__` calls. -/
theorem runGets_coherent (s : CachedFashionMNIST) (ixs : List ℕ)
    (hc : CacheCoherent s) : CacheCoherent (s.runGets ixs).1 := by
  induction ixs generalizing s with
  | nil => exact hc
  | cons i is ih =>
    unfold runGets
    cases hg : s.getitem i with
    | none => exact hc
    | some r =>
      obtain ⟨v, s', c⟩ := r
      have hs := getitem_some_spec s i v s' c hg
      exact ih s' (hs.2.2.2.2.1 hc)

/-- Every value a run of `__getitem__` calls returns for an index is the
(transferred) wrapped item at that index. -/
theorem runGets_values (s : CachedFashionMNIST) (ixs : List ℕ)
    (hc : CacheCoherent s) :
    ∀ p ∈ (s.runGets ixs).2.1,
      s.ds[p.1]?.map (transferItem s.cuda) = some p.2 := by
  induction ixs generalizing s with
  | nil =>
    intro p hp
    simp [runGets] at hp
  | cons i is ih =>
    intro p hp
    unfold runGets at hp
    cases hg : s.getitem i with
    | none =>
      rw [hg] at hp
      simp at hp
    | some r =>
      obtain ⟨v, s', c⟩ := r
      rw [hg] at hp
      simp only [List.mem_cons] at hp
      have hs := getitem_some_spec s i v s' c hg
      rcases hp with rfl | hp
      · exact hs.2.2.2.1 hc
      · have hv := ih s' (hs.2.2.2.2.1 hc) p hp
        rw [hs.1, hs.2.1] at hv
        exact hv

/-- Every index at which a run consults the wrapped dataset was absent from
the cache at the start of the run. -/
theorem runGets_consults_fresh (s : CachedFashionMNIST) (ixs : List ℕ) :
    ∀ j ∈ (s.runGets ixs).2.2, s.cache.lookup j = none := by
  induction ixs generalizing s with
  | nil =>
    intro j hj
    simp [runGets] at hj
  | cons i is ih =>
    intro j hj
    unfold runGets at hj
    cases hg : s.getitem i with
    | none =>
      rw [hg] at hj
      simp at hj
    | some r =>
      obtain ⟨v, s', c⟩ := r
      rw [hg] at hj
      have hs := getitem_some_spec s i v s' c hg
      have hrest : j ∈ ((s'.runGets is).2.2 : List ℕ) → s.cache.lookup j = none := by
        intro hj'
        have h2 := ih s' j hj'
        cases hl : s.cache.lookup j with
        | none => rfl
        | some w =>
          rw [hs.2.2.1 j w hl] at h2
          cases h2
      cases c with
      | false =>
        exact hrest hj
      | true =>
        have hj' : j = i ∨ j ∈ ((s'.runGets is).2.2 : List ℕ) :=
          List.mem_cons.mp hj
        rcases hj' with rfl | hj'
        · exact (hs.2.2.2.2.2 rfl).1
        · exact hrest hj'

/-- A run consults the wrapped dataset at most once per index. -/
theorem runGets_consults_nodup (s : CachedFashionMNIST) (ixs : List ℕ) :
    (s.runGets ixs).2.2.Nodup := by
  induction ixs generalizing s with
  | nil => simp [runGets]
  | cons i is ih =>
    unfold runGets
    cases hg : s.getitem i with
    | none => simp
    | some r =>
      obtain ⟨v, s', c⟩ := r
      have hs := getitem_some_spec s i v s' c hg
      cases c with
      | false =>
        exact ih s'
      | true =>
        show (i :: ((s'.runGets is).2.2 : List ℕ)).Nodup
        rw [List.nodup_cons]
        refine ⟨?_, ih s'⟩
        intro hmem
        have hfresh := runGets_consults_fresh s' is i hmem
        rw [(hs.2.2.2.2.2 rfl).2] at hfresh
        cases hfresh

end CachedFashionMNIST

/-- Claim C2: `CachedFashionMNIST` memoizes device-transferred items: after
any sequence of `__getitem__` calls on a freshly constructed object, every
index present in the cache maps to the wrapped dataset's item at that
index (transferred to CUDA exactly when the `cuda` flag is set), the
wrapped dataset is consulted at most once per index, and any two calls
with the same index return the same value. -/
theorem cachedmnist_memoizes (ds : List MnistItem) (cuda tm : Bool)
    (ixs : List ℕ) :
    CachedFashionMNIST.CacheCoherent
      ((CachedFashionMNIST.init ds cuda tm).runGets ixs).1 ∧
    ((CachedFashionMNIST.init ds cuda tm).runGets ixs).2.2.Nodup ∧
    (∀ p ∈ ((CachedFashionMNIST.init ds cuda tm).runGets ixs).2.1,
      ds[p.1]?.map (CachedFashionMNIST.transferItem cuda) = some p.2) ∧
    (∀ p ∈ ((CachedFashionMNIST.init ds cuda tm).runGets ixs).2.1,
      ∀ p' ∈ ((CachedFashionMNIST.init ds cuda tm).runGets ixs).2.1,
        p.1 = p'.1 → p.2 = p'.2) := by
  have hc0 : CachedFashionMNIST.CacheCoherent
      (CachedFashionMNIST.init ds cuda tm) := by
    intro k v hk
    cases hk
  refine ⟨CachedFashionMNIST.runGets_coherent _ _ hc0,
    CachedFashionMNIST.runGets_consults_nodup _ _,
    fun p hp => CachedFashionMNIST.runGets_values _ _ hc0 p hp, ?_⟩
  intro p hp p' hp' hpp
  have h1 := CachedFashionMNIST.runGets_values _ _ hc0 p hp
  have h2 := CachedFashionMNIST.runGets_values _ _ hc0 p' hp'
  rw [hpp] at h1
  rw [h1] at h2
  exact Option.some.inj h2

/-- The column of a matrix has one entry per row. -/
theorem npColumn_length (q : List (List ℚ)) (t : ℕ) :
    (npColumn q t).length = q.length :=
  List.length_map _ _

/-- Model `np.argsort` returns a permutation of the row indices. -/
theorem npArgsort_perm (v : List ℚ) :
    (npArgsort v).Perm (List.range v.length) :=
  List.perm_insertionSort _ _

/-- Model `np.argsort` arranges the indices so the scores are ascending. -/
theorem npArgsort_pairwise (v : List ℚ) :
    List.Pairwise (scoreLE v) (npArgsort v) :=
  List.sorted_insertionSort _ _

theorem npArgsort_length (v : List ℚ) : (npArgsort v).length = v.length := by
  rw [(npArgsort_perm v).length_eq, List.length_range]

theorem npArgsort_nodup (v : List ℚ) : (npArgsort v).Nodup :=
  ((npArgsort_perm v).nodup_iff).mpr (List.nodup_range _)

theorem mem_npArgsort (v : List ℚ) (i : ℕ) : i ∈ npArgsort v ↔ i < v.length := by
  rw [(npArgsort_perm v).mem_iff, List.mem_range]

/-- Claim C3: for a soft-assignment matrix `q` and a valid column index
`target_cluster`, the computed `top_indices` are `min 10 (number of rows)`
distinct valid row indices, ordered ascending by their score in that
column, every row left out scores no higher than every row selected (so
the selected rows carry the 10 largest column entries; all rows when there
are fewer than 10), and `top_scores` are exactly the column entries at
`top_indices` in the same order. -/
theorem topk_selects_ten_largest (q : List (List ℚ)) (t : ℕ)
    (ht : validColumn q t) :
    (topIndices q t).length = min 10 q.length ∧
    (topIndices q t).Nodup ∧
    (∀ i ∈ topIndices q t, i < q.length) ∧
    List.Chain' (fun a b => a ≤ b) (topScores q t) ∧
    (∀ j, j < q.length → j ∉ topIndices q t →
      ∀ i ∈ topIndices q t,
        (npColumn q t).getD j 0 ≤ (npColumn q t).getD i 0) ∧
    (q.length ≤ 10 → (topIndices q t).Perm (List.range q.length)) ∧
    topScores q t = (topIndices q t).map (fun i => (npColumn q t).getD i 0) := by
  have hlen : (npArgsort (npColumn q t)).length = q.length := by
    rw [npArgsort_length, npColumn_length]
  refine ⟨?_, ?_, ?_, ?_, ?_, ?_, rfl⟩
  · show ((npArgsort (npColumn q t)).drop
      ((npArgsort (npColumn q t)).length - 10)).length = min 10 q.length
    rw [List.length_drop, hlen]
    omega
  · exact List.Nodup.sublist (List.drop_sublist _ _) (npArgsort_nodup _)
  · intro i hi
    have hmem : i ∈ npArgsort (npColumn q t) :=
      (List.drop_sublist _ _).subset hi
    rw [mem_npArgsort, npColumn_length] at hmem
    exact hmem
  · have hpairSel : List.Pairwise (scoreLE (npColumn q t)) (topIndices q t) :=
      List.Pairwise.sublist (List.drop_sublist _ _) (npArgsort_pairwise _)
    have hpairScores : List.Pairwise (fun a b : ℚ => a ≤ b)
        ((topIndices q t).map (fun i => (npColumn q t).getD i 0)) :=
      List.pairwise_map.mpr hpairSel
    exact hpairScores.chain'
  · intro j hj hnot i hi
    have hjarg : j ∈ npArgsort (npColumn q t) := by
      rw [mem_npArgsort, npColumn_length]
      exact hj
    have hsplit := List.take_append_drop
      ((npArgsort (npColumn q t)).length - 10) (npArgsort (npColumn q t))
    have hpair := npArgsort_pairwise (npColumn q t)
    rw [← hsplit] at hpair hjarg
    rw [List.pairwise_append] at hpair
    rcases List.mem_append.mp hjarg with hjt | hjd
    · exact hpair.2.2 j hjt i hi
    · exact absurd hjd hnot
  · intro h10
    have h0 : (npArgsort (npColumn q t)).length - 10 = 0 := by
      rw [hlen]
      omega
    show ((npArgsort (npColumn q t)).drop
      ((npArgsort (npColumn q t)).length - 10)).Perm (List.range q.length)
    rw [h0, List.drop_zero]
    have hperm := npArgsort_perm (npColumn q t)
    rwa [npColumn_length] at hperm

/-- Witness for claim C3 at the concrete matrix `[[1], [3], [2]]`, column `0`:
the selected indices are `[0, 2, 1]` (all three rows, ascending by score
`1 ≤ 2 ≤ 3`). -/
theorem topk_selects_ten_largest_witness :
    validColumn [[(1 : ℚ)], [3], [2]] 0 ∧
    (topIndices [[(1 : ℚ)], [3], [2]] 0).length =
      min 10 (List.length [[(1 : ℚ)], [3], [2]]) ∧
    List.Chain' (fun a b => a ≤ b) (topScores [[(1 : ℚ)], [3], [2]] 0) ∧
    topIndices [[(1 : ℚ)], [3], [2]] 0 = [0, 2, 1] := by
  have ht : validColumn [[(1 : ℚ)], [3], [2]] 0 := by decide
  have h := topk_selects_ten_largest [[(1 : ℚ)], [3], [2]] 0 ht
  exact ⟨ht, h.1, h.2.2.2.1, by decide⟩
